import Mathlib

/-!
Verification of the MCP OpenAPI template server core against its source.

Shallow embedding of the four subsystems under `src/`:
* `openapi_tools.py` — `_collect_parameters`, `_sanitize_name`,
  `register_openapi_tools` (tool-name registration logic) and the pure
  request-assembly prefix of `_execute_request`;
* `server.py` — `with_retry` (retry loop with exponential backoff and
  jitter) and `_merge_auth`;
* `auth_gateway.py` — `APICredentials`, `AuthGatewayService.authenticate`
  and `_fetch_from_gateway`;
* `tool_policies.py` — `is_tool_blocked`, `get_tool_policy`,
  `_filter_sensitive_params`.

Python dictionaries are embedded as association lists with Python `dict`
assignment semantics (`dinsert` overwrites in place, keeping the original
key position; lookup finds the first binding).  Python `None` and dynamic
values are embedded as the inductive `PyVal`.  Wall-clock time
(`datetime.utcnow()`) is an explicit integer parameter.  Network responses
and the random jitter draw are explicit oracle parameters.
-/

namespace MCPTemplate

/-! ## Python dictionaries as association lists -/

/-- First-match association lookup (`d[k]` / `d.get(k)`). -/
def dlookup {α : Type} : List (String × α) → String → Option α
  | [], _ => none
  | (k1, v) :: rest, k => if k1 = k then some v else dlookup rest k

/-- Python `k in d`. -/
def dcontains {α : Type} (d : List (String × α)) (k : String) : Bool :=
  (dlookup d k).isSome

/-- Python `d[k] = v`: overwrite in place if the key exists (keeping its
position, as Python dicts do), otherwise append. -/
def dinsert {α : Type} : List (String × α) → String → α → List (String × α)
  | [], k, v => [(k, v)]
  | (k1, v1) :: rest, k, v =>
    if k1 = k then (k1, v) :: rest else (k1, v1) :: dinsert rest k v

/-- Python `d.setdefault(k, v)`: insert only when the key is absent. -/
def dsetdefault {α : Type} (d : List (String × α)) (k : String) (v : α) :
    List (String × α) :=
  if (dlookup d k).isSome then d else d ++ [(k, v)]

theorem dlookup_dinsert {α : Type} (d : List (String × α)) (k k' : String) (v : α) :
    dlookup (dinsert d k v) k' = if k = k' then some v else dlookup d k' := by
  induction d with
  | nil =>
    by_cases h : k = k' <;> simp [dinsert, dlookup, h]
  | cons hd tl ih =>
    obtain ⟨k1, v1⟩ := hd
    by_cases h1 : k1 = k
    · subst h1
      by_cases h2 : k1 = k' <;> simp [dinsert, dlookup, h2]
    · by_cases h2 : k1 = k'
      · subst h2
        have : ¬ k = k1 := fun h => h1 h.symm
        simp [dinsert, dlookup, h1, this]
      · simp [dinsert, dlookup, h1, h2, ih]

theorem dlookup_append {α : Type} (d1 d2 : List (String × α)) (k : String) :
    dlookup (d1 ++ d2) k =
      match dlookup d1 k with
      | some v => some v
      | none => dlookup d2 k := by
  induction d1 with
  | nil => simp [dlookup]
  | cons hd tl ih =>
    obtain ⟨k1, v1⟩ := hd
    by_cases h : k1 = k <;> simp [dlookup, h, ih]

/-! ## Dynamic Python values -/

/-- Embedding of the dynamically typed argument values that flow through
the executor and the audit-log filter (`Any` in the source).  `null` is
Python `None`. -/
inductive PyVal : Type
  | str (s : String)
  | num (n : Int)
  | boolean (b : Bool)
  | null
deriving DecidableEq, Repr

/-- Python `str(value)`, as used for path-template substitution. -/
def pyStr : PyVal → String
  | .str s => s
  | .num n => toString n
  | .boolean b => if b then "True" else "False"
  | .null => "None"

/-! ## `openapi_tools.py` — parameter collection -/

/-- One OpenAPI parameter object, with the three fields the compiler reads
(`param.get("name")`, `param.get("in")`, `param.get("required")`); each is
optional, as `dict.get` returns `None` when absent. -/
structure Param where
  name : Option String
  location : Option String
  required : Option Bool
deriving DecidableEq, Repr

/-- The dedup key `(param.get("name"), param.get("in"))`. -/
def pkey (p : Param) : Option String × Option String := (p.name, p.location)

/-- The single pass of `_collect_parameters` over both source lists with a
`seen` set: keep a parameter only when its `(name, in)` key is new. -/
def dedupByKey : List (Option String × Option String) → List Param → List Param
  | _, [] => []
  | seen, p :: rest =>
    if pkey p ∈ seen then dedupByKey seen rest
    else p :: dedupByKey (pkey p :: seen) rest

/-- `_collect_parameters(path_params, op_params)`: iterating
`(path_params, op_params)` in order with one shared `seen` set is the same
as one pass over the concatenation. -/
def collect_parameters (pathParams opParams : List Param) : List Param :=
  dedupByKey [] (pathParams ++ opParams)

/-! ## `openapi_tools.py` — name sanitization and registration -/

/-- Python `s[:n]` for an `int` bound `n` (negative bounds count from the
end, saturating at the empty string). -/
def pySliceTo (s : String) (n : Int) : String :=
  if 0 ≤ n then String.mk (s.toList.take n.toNat)
  else String.mk (s.toList.take (s.toList.length - (-n).toNat))

/-- Python `s.rstrip("_")`. -/
def rstripUnderscores (s : String) : String :=
  String.mk ((s.toList.reverse.dropWhile (fun c => c = '_')).reverse)

/-- Python `s.split("_")` for the single-character separator, on character
lists (`"".split("_") = [""]`, `"_a_".split("_") = ["", "a", ""]`). -/
def splitOnUnderscore : List Char → List (List Char)
  | [] => [[]]
  | c :: rest =>
    let r := splitOnUnderscore rest
    if c = '_' then [] :: r
    else
      match r with
      | [] => [[c]]
      | h :: t => (c :: h) :: t

/-- Python `"_".join(pieces)`, on character lists. -/
def joinUnderscore : List (List Char) → List Char
  | [] => []
  | [p] => p
  | p :: rest => p ++ '_' :: joinUnderscore rest

/-- Python `s.lower()`, character-wise (same as the library `str.lower`
on the ASCII names this code handles). -/
def pyLower (s : String) : String :=
  String.mk (s.toList.map Char.toLower)

/-- The truncation tail of `_sanitize_name`:
`if len(clean) > max_length: clean = clean[:max_length].rstrip("_")`. -/
def truncateName (clean : String) (maxLength : Int) : String :=
  if maxLength < (clean.length : Int) then rstripUnderscores (pySliceTo clean maxLength)
  else clean

/-- `_sanitize_name(name, max_length)` (the Python default for
`max_length` is 64; `register_openapi_tools` always passes it explicitly):
lowercase alphanumerics, non-alphanumerics to `_`, collapse runs of `_`
and strip them at both ends (via `"_".join(filter(None, joined.split("_")))`),
fall back to `"op"` when empty, then truncate to `max_length` and strip
trailing underscores. -/
def sanitize_name (name : String) (maxLength : Int) : String :=
  let joined := name.toList.map (fun ch => if ch.isAlphanum then ch.toLower else '_')
  let clean0 := String.mk
    (joinUnderscore ((splitOnUnderscore joined).filter (fun piece => piece ≠ [])))
  let clean := if clean0 = "" then "op" else clean0
  truncateName clean maxLength

/-- One HTTP-verb entry under a path: `isDict` records
`isinstance(op, dict)` (non-dict entries are skipped), `operationId` is
`op.get("operationId")`, `parameters` is `op.get("parameters", [])` and
`requestBody` records `op.get("requestBody") is not None`. -/
structure PyOp where
  isDict : Bool
  operationId : Option String
  parameters : List Param
  requestBody : Bool
deriving Repr

/-- One entry of the spec's `paths` mapping: the path-level
`parameters` list plus the remaining key/value items iterated by
`path_item.items()` (keys that are not one of the five recognized verbs,
such as `"parameters"` itself, are skipped by the loop guard). -/
structure PathItem where
  parameters : List Param
  entries : List (String × PyOp)
deriving Repr

/-- The verb whitelist `{"get", "post", "put", "delete", "patch"}`. -/
def recognizedMethods : List String := ["get", "post", "put", "delete", "patch"]

/-- The final tool name for one operation:
`f"{prefix}_{_sanitize_name(op_id or f"{method}_{path}", max_length=max_name_len)}"`.
Python `or` treats the empty string as falsy. -/
def toolNameFor (pfx : String) (maxNameLen : Int) (path method : String)
    (op : PyOp) : String :=
  let seed := match op.operationId with
    | some s => if s = "" then method ++ "_" ++ path else s
    | none => method ++ "_" ++ path
  pfx ++ "_" ++ sanitize_name seed maxNameLen

/-- The registration loop of `register_openapi_tools`: skip unrecognized
verbs and non-dict entries, compute the tool name, and register it only if
it is not already in `seen_tool_names` (first registration wins). The
accumulator is the list of registered names in registration order. -/
def registerLoop (pfx : String) (maxNameLen : Int) :
    List (String × String × PyOp) → List String → List String
  | [], seen => seen
  | (path, method, op) :: rest, seen =>
    if pyLower method ∈ recognizedMethods then
      if op.isDict then
        let tn := toolNameFor pfx maxNameLen path method op
        if tn ∈ seen then registerLoop pfx maxNameLen rest seen
        else registerLoop pfx maxNameLen rest (seen ++ [tn])
      else registerLoop pfx maxNameLen rest seen
    else registerLoop pfx maxNameLen rest seen

/-- `register_openapi_tools`, restricted to the data the claims are about:
the list of registered tool names (the function's return value is its
length).  `max_name_len = 64 - (len(prefix) + 1)` can be negative. -/
def register_openapi_tools (pfx : String) (paths : List (String × PathItem)) :
    List String :=
  let maxNameLen : Int := 64 - ((pfx.length : Int) + 1)
  registerLoop pfx maxNameLen
    (paths.flatMap (fun pi => pi.2.entries.map (fun e => (pi.1, e.1, e.2)))) []

/-! ## `openapi_tools.py` — request assembly in `_execute_request` -/

/-- The required-query comprehension
`{k: args[k] for k in required_query_params if k in args}`. -/
def requiredQueryLoop (args : List (String × PyVal))
    (q : List (String × PyVal)) (reqQ : List String) : List (String × PyVal) :=
  reqQ.foldl (fun acc k =>
    match dlookup args k with
    | some v => dinsert acc k v
    | none => acc) q

/-- The optional-query loop:
`if k in args and args[k] is not None: query[k] = args[k]`. -/
def optionalQueryLoop (args : List (String × PyVal))
    (q : List (String × PyVal)) (optQ : List String) : List (String × PyVal) :=
  optQ.foldl (fun acc k =>
    match dlookup args k with
    | some v => if v = PyVal.null then acc else dinsert acc k v
    | none => acc) q

/-- `query.update(auth_params())`: every auth binding is written into the
dict, overwriting any caller-supplied value of the same name. -/
def authUpdateLoop (q : List (String × PyVal)) (auth : List (String × String)) :
    List (String × PyVal) :=
  auth.foldl (fun acc kv => dinsert acc kv.1 (PyVal.str kv.2)) q

/-- The full query dict assembled by `_execute_request` before the HTTP
call. -/
def buildQuery (reqQ optQ : List String) (args : List (String × PyVal))
    (auth : List (String × String)) : List (String × PyVal) :=
  authUpdateLoop (optionalQueryLoop args (requiredQueryLoop args [] reqQ) optQ) auth

/-- The request `_execute_request` hands to the HTTP client when
validation passes. -/
structure PreparedRequest where
  path : String
  query : List (String × PyVal)
  headers : List (String × String)
  jsonBody : Option PyVal
deriving DecidableEq, Repr

/-- The pure prefix of `_execute_request`, up to (but not including) the
`client.request(...)` call: validate required path params (raising
`ValueError` with the missing path names), then required query params
(raising with the missing query names), then build the substituted path,
the query dict, the auth headers and the optional body.  An `Except.error`
is a `ValueError` raised before any network call. -/
def execute_request_prep (pathTemplate : String)
    (reqP reqQ optQ : List String)
    (authParams : List (String × String)) (authHeaders : List (String × String))
    (hasRequestBody : Bool) (args : List (String × PyVal)) :
    Except (List String) PreparedRequest :=
  let missingPath := reqP.filter (fun p => ! dcontains args p)
  if missingPath ≠ [] then .error missingPath
  else
    let missingQuery := reqQ.filter (fun p => ! dcontains args p)
    if missingQuery ≠ [] then .error missingQuery
    else
      .ok
        { path := reqP.foldl (fun pa p =>
            pa.replace ("\x7b" ++ p ++ "\x7d") (pyStr ((dlookup args p).getD PyVal.null))) pathTemplate
          query := buildQuery reqQ optQ args authParams
          headers := authHeaders
          jsonBody := if hasRequestBody then dlookup args "body" else none }

/-! ## `server.py` — `_merge_auth` -/

/-- `_merge_auth(params)`: copy the caller params (or `{}` when `None`),
then `merged.setdefault(key, value)` for each auth binding — the caller
keeps precedence here. -/
def merge_auth (params : Option (List (String × PyVal)))
    (auth : List (String × String)) : List (String × PyVal) :=
  auth.foldl (fun m kv => dsetdefault m kv.1 (PyVal.str kv.2)) (params.getD [])

/-! ## `server.py` — `with_retry` -/

/-- The observable outcome of one call of the wrapped function:
a value, an `httpx.HTTPStatusError` with its status code, an
`httpx.ConnectError`, an `httpx.TimeoutException`, or any other exception
(which the `try` block does not catch). -/
inductive Outcome (α : Type) : Type
  | success (v : α)
  | httpError (status : Nat)
  | connectError
  | timeoutError
  | otherError

/-- The exception `with_retry` lets escape. `noAttempt` is the final
`RuntimeError("with_retry: no se ejecutó ningún intento")`. -/
inductive RErr : Type
  | http (status : Nat)
  | connect
  | timeout
  | other
  | noAttempt
deriving DecidableEq, Repr

/-- The exception corresponding to a failing outcome. -/
def errOf {α : Type} : Outcome α → RErr
  | .success _ => .noAttempt
  | .httpError s => .http s
  | .connectError => .connect
  | .timeoutError => .timeout
  | .otherError => .other

/-- An outcome that makes the loop continue to the next attempt: an HTTP
status in the retryable set, or a connect/timeout transport failure. -/
def isRetryableFailure {α : Type} (retryable : List Nat) : Outcome α → Bool
  | .httpError s => decide (s ∈ retryable)
  | .connectError => true
  | .timeoutError => true
  | _ => false

/-- An outcome `with_retry` re-raises at once: a non-retryable HTTP status,
or an exception type the `except` clauses do not catch. -/
def isImmediateRaise {α : Type} (retryable : List Nat) : Outcome α → Bool
  | .httpError s => ! decide (s ∈ retryable)
  | .otherError => true
  | _ => false

/-- `min(base_delay * (2 ** attempt), max_delay)`. -/
def backoffDelay (baseDelay maxDelay : ℚ) (attempt : Nat) : ℚ :=
  min (baseDelay * 2 ^ attempt) maxDelay

/-- Observable trace of one `with_retry` run: the returned value or the
escaping exception, the number of calls of `func`, and the list of
`asyncio.sleep` durations, tagged with the 0-indexed attempt they follow. -/
structure RetryTrace (α : Type) where
  result : Except RErr α
  callsMade : Nat
  sleeps : List (Nat × ℚ)
deriving Repr

/-- The `for attempt in range(max_attempts)` loop.  `calls i` is the
outcome of the `i`-th call of `func`; `u i` is the value
`random.uniform(0, delay * 0.1)` drew before the `i`-th sleep; `i` is the
current attempt index, `r` the number of attempts still available
(including this one).  A sleep happens only when the failure is retryable
and `attempt < max_attempts - 1`, i.e. when further attempts remain. -/
def retryGo {α : Type} (calls : Nat → Outcome α) (retryable : List Nat)
    (baseDelay maxDelay : ℚ) (u : Nat → ℚ) :
    Nat → Nat → Option RErr → List (Nat × ℚ) → RetryTrace α
  | i, 0, last, acc => ⟨.error (last.getD .noAttempt), i, acc⟩
  | i, r + 1, _last, acc =>
    match calls i with
    | .success v => ⟨.ok v, i + 1, acc⟩
    | .httpError s =>
      if s ∈ retryable then
        retryGo calls retryable baseDelay maxDelay u (i + 1) r (some (.http s))
          (acc ++ if 1 ≤ r then [(i, backoffDelay baseDelay maxDelay i + u i)] else [])
      else ⟨.error (.http s), i + 1, acc⟩
    | .connectError =>
      retryGo calls retryable baseDelay maxDelay u (i + 1) r (some .connect)
        (acc ++ if 1 ≤ r then [(i, backoffDelay baseDelay maxDelay i + u i)] else [])
    | .timeoutError =>
      retryGo calls retryable baseDelay maxDelay u (i + 1) r (some .timeout)
        (acc ++ if 1 ≤ r then [(i, backoffDelay baseDelay maxDelay i + u i)] else [])
    | .otherError => ⟨.error .other, i + 1, acc⟩

/-- `with_retry(func, max_attempts, base_delay, max_delay, retryable_status)`
over the oracle of call outcomes and jitter draws. -/
def with_retry {α : Type} (calls : Nat → Outcome α) (retryable : List Nat)
    (baseDelay maxDelay : ℚ) (u : Nat → ℚ) (maxAttempts : Nat) : RetryTrace α :=
  retryGo calls retryable baseDelay maxDelay u 0 maxAttempts none []

/-- The module-level default `RETRYABLE_STATUS_CODES = {429, 500, 502, 503, 504}`. -/
def RETRYABLE_STATUS_CODES : List Nat := [429, 500, 502, 503, 504]

/-! ## `auth_gateway.py` -/

/-- Minimal JSON value, for gateway response bodies (`response.json()`). -/
inductive Json : Type
  | obj (fields : List (String × Json))
  | str (s : String)
  | num (n : Int)
  | boolean (b : Bool)
  | null

/-- `APICredentials`: the credential mapping fetched from the gateway,
with the fetch timestamp and configured TTL.  Time is in whole seconds. -/
structure APICredentials where
  credentials : List (String × Json)
  fetched_at : Int
  ttl_seconds : Int

/-- `expires_at = fetched_at + timedelta(seconds=ttl_seconds)`. -/
def APICredentials.expires_at (c : APICredentials) : Int :=
  c.fetched_at + c.ttl_seconds

/-- `is_expired`: `datetime.utcnow() > self.expires_at` (strict). -/
def APICredentials.is_expired (now : Int) (c : APICredentials) : Bool :=
  c.expires_at < now

/-- `AuthGatewayError(message, status_code, details)`. -/
structure AuthGatewayError where
  message : String
  status_code : Option Nat
  details : Option String

/-- What the gateway answered one `GET {gateway_url}{endpoint}` with: an
HTTP response (status, `response.text`, parsed `response.json()` body) or
a transport failure (carrying the detail string the code would render). -/
inductive GatewayResponse : Type
  | http (status : Nat) (text : String) (body : Json)
  | connectError (detail : String)
  | timeoutError (detail : String)

/-- The 401 message (source text transliterated to plain ASCII). -/
def unauthorizedMessage : String :=
  "JWT invalido o expirado. Por favor, vuelve a hacer login."

/-- The 403 message. -/
def forbiddenMessage (svc : String) : String :=
  "No tienes permisos para acceder a las credenciales de " ++ svc ++ "."

/-- The 404 ("NotConfigured") message. -/
def notConfiguredMessage (svc : String) : String :=
  "No tienes credenciales de " ++ svc ++ " configuradas en Auth Gateway. " ++
  "Por favor, anade tus credenciales en el panel de Auth Gateway."

/-- The 5xx message. -/
def unavailableMessage : String :=
  "Auth Gateway no disponible. Intentalo mas tarde."

/-- `response.text[:200] if response.text else None`. -/
def textDetail (text : String) : Option String :=
  if text = "" then none else some (String.mk (text.toList.take 200))

/-- `AuthGatewayService._fetch_from_gateway`, as a function of the
gateway's response.  Status dispatch: 401, 403, 404, `>= 500`, then
`raise_for_status()` (whose `HTTPStatusError` for a remaining 4xx the
final `except` clause converts to an `AuthGatewayError`), then body
parsing: `creds_data = data.get("data", data)`, the `isinstance(dict)`
check, and the missing-credential check against the configured
`credentials_format` names.  On success the credentials are stamped with
the current time and the configured cache TTL.  (The `details` payloads of
the two malformed-response errors render Python values and are simplified
to fixed markers; no claim inspects them.) -/
def fetch_from_gateway (svc : String) (expected : List String)
    (cacheTtl : Int) (now : Int) (resp : GatewayResponse) :
    Except AuthGatewayError APICredentials :=
  match resp with
  | .connectError d =>
    .error ⟨"No se pudo conectar con Auth Gateway", none, some d⟩
  | .timeoutError d =>
    .error ⟨"Timeout al conectar con Auth Gateway", none, some d⟩
  | .http status text body =>
    if status = 401 then .error ⟨unauthorizedMessage, some 401, none⟩
    else if status = 403 then .error ⟨forbiddenMessage svc, some 403, none⟩
    else if status = 404 then .error ⟨notConfiguredMessage svc, some 404, none⟩
    else if 500 ≤ status then
      .error ⟨unavailableMessage, some status, textDetail text⟩
    else if 400 ≤ status then
      .error ⟨"Error HTTP del Auth Gateway", some status, textDetail text⟩
    else
      let credsData := match body with
        | .obj fields =>
          (match dlookup fields "data" with
           | some d => d
           | none => Json.obj fields)
        | other => other
      match credsData with
      | .obj fields =>
        let missing := expected.filter (fun c => (dlookup fields c).isNone)
        if missing.isEmpty then .ok ⟨fields, now, cacheTtl⟩
        else
          .error ⟨"Respuesta invalida del Auth Gateway: faltan credenciales",
            none, some "Credenciales faltantes"⟩
      | _ =>
        .error ⟨"Respuesta invalida del Auth Gateway: formato incorrecto",
          none, some "Tipo recibido"⟩

/-- The mutable state of `AuthGatewayService`: the per-JWT credential
cache and the active-session pointer `_current_jwt`. -/
structure AuthState where
  cache : List (String × APICredentials)
  current_jwt : Option String

/-- `self._cache.get(jwt)` holds a non-expired entry. -/
def cacheValid (now : Int) (st : AuthState) (jwt : String) : Bool :=
  match dlookup st.cache jwt with
  | some c => ! c.is_expired now
  | none => false

/-- The fetch-and-store tail of `authenticate`: a raised
`AuthGatewayError` propagates before `self._cache[jwt] = credentials` and
`self._current_jwt = jwt` run, so the state is unchanged on failure.  The
third component counts external gateway fetches (always 1 here). -/
def authFetch (svc : String) (expected : List String) (cacheTtl : Int)
    (now : Int) (jwt : String) (resp : GatewayResponse) (st : AuthState) :
    Except AuthGatewayError APICredentials × AuthState × Nat :=
  match fetch_from_gateway svc expected cacheTtl now resp with
  | .error e => (.error e, st, 1)
  | .ok creds => (.ok creds, ⟨dinsert st.cache jwt creds, some jwt⟩, 1)

/-- `AuthGatewayService.authenticate(jwt)`: serve a cached, non-expired
entry (marking the session active, zero fetches), otherwise fetch from
the gateway and store on success. -/
def authenticate (svc : String) (expected : List String) (cacheTtl : Int)
    (now : Int) (jwt : String) (resp : GatewayResponse) (st : AuthState) :
    Except AuthGatewayError APICredentials × AuthState × Nat :=
  match dlookup st.cache jwt with
  | some cached =>
    if cached.is_expired now then authFetch svc expected cacheTtl now jwt resp st
    else (.ok cached, ⟨st.cache, some jwt⟩, 0)
  | none => authFetch svc expected cacheTtl now jwt resp st

/-! ## `tool_policies.py` -/

/-- Risk levels. -/
inductive RiskLevel : Type
  | low
  | medium
  | high
  | critical
deriving DecidableEq, Repr

/-- Tool actions. -/
inductive ToolAction : Type
  | allow
  | allowWithLogging
  | requireConfirmation
  | block
deriving DecidableEq, Repr

/-- The `policies:` section of the service configuration. -/
structure PoliciesConfig where
  blocked_patterns : List String
  require_confirmation : List String
  audit_all : Bool

/-- Contiguous-sublist test on character lists. -/
def listInfixOf (needle : List Char) : List Char → Bool
  | [] => needle.isEmpty
  | c :: t => needle.isPrefixOf (c :: t) || listInfixOf needle t

/-- Case-sensitive substring containment (`needle in hay` on strings). -/
def strContainsSub (hay needle : String) : Bool :=
  listInfixOf needle.toList hay.toList

/-- Python `s.startswith(pre)`. -/
def strStartsWith (s pre : String) : Bool :=
  pre.toList.isPrefixOf s.toList

/-- Model of `re.search(pattern, tool_name, re.IGNORECASE)` for the
pattern lists of the policy configuration: for patterns free of regex
metacharacters (the shape the spec describes: "case-insensitive,
substring search") a match is case-insensitive substring containment. -/
def reSearchCI (pat s : String) : Bool :=
  strContainsSub (pyLower s) (pyLower pat)

/-- `_matches_pattern(tool_name, patterns)`. -/
def matches_pattern (toolName : String) (patterns : List String) : Bool :=
  patterns.any (fun pat => reSearchCI pat toolName)

/-- `is_tool_blocked`: the `ENABLE_CRITICAL_TOOLS` environment flag
short-circuits to `False` before the pattern check. -/
def is_tool_blocked (enableCriticalTools : Bool) (cfg : PoliciesConfig)
    (toolName : String) : Bool :=
  if enableCriticalTools then false
  else matches_pattern toolName cfg.blocked_patterns

/-- `get_tool_policy` (note: it does not consult `ENABLE_CRITICAL_TOOLS`):
blocked patterns, then confirmation patterns, then the name-shape
heuristics, then the default. -/
def get_tool_policy (cfg : PoliciesConfig) (toolName : String) :
    RiskLevel × ToolAction :=
  if matches_pattern toolName cfg.blocked_patterns then
    (.critical, .block)
  else if matches_pattern toolName cfg.require_confirmation then
    (.high, .requireConfirmation)
  else
    let toolLower := pyLower toolName
    if strContainsSub toolLower "_get_" || strStartsWith toolLower "get_" then
      (.low, .allow)
    else if strContainsSub toolLower "_delete_" || strStartsWith toolLower "delete_" then
      (.medium, .allowWithLogging)
    else (.low, .allowWithLogging)

/-- `SENSITIVE_KEYS` of `_filter_sensitive_params`. -/
def SENSITIVE_KEYS : List String :=
  ["key", "token", "password", "secret", "credential", "api_key", "apikey"]

/-- `TRUNCATE_KEYS` of `_filter_sensitive_params`. -/
def TRUNCATE_KEYS : List String :=
  ["desc", "description", "text", "body", "content"]

/-- `any(s in key_lower for s in SENSITIVE_KEYS)`. -/
def isSensitiveKey (key : String) : Bool :=
  SENSITIVE_KEYS.any (fun s => strContainsSub (pyLower key) s)

/-- `any(s in key_lower for s in TRUNCATE_KEYS)`. -/
def isTruncateKey (key : String) : Bool :=
  TRUNCATE_KEYS.any (fun s => strContainsSub (pyLower key) s)

/-- `MAX_VALUE_LENGTH = 100`. -/
def MAX_VALUE_LENGTH : Nat := 100

/-- The per-entry body of the `_filter_sensitive_params` loop: sensitive
keys are redacted first (`continue` skips the rest); otherwise long string
values are truncated to a 100-character head plus `"..."` (the truncate-key
branch and the generic branch perform the same replacement); all other
values pass through unchanged. -/
def filterValue (key : String) (value : PyVal) : PyVal :=
  if isSensitiveKey key then .str "[REDACTED]"
  else
    match value with
    | .str s =>
      if isTruncateKey key && decide (MAX_VALUE_LENGTH < s.length) then
        .str (String.mk (s.toList.take MAX_VALUE_LENGTH) ++ "...")
      else if MAX_VALUE_LENGTH < s.length then
        .str (String.mk (s.toList.take MAX_VALUE_LENGTH) ++ "...")
      else .str s
    | v => v

/-- `_filter_sensitive_params(params)`: rebuild the dict with filtered
values. -/
def filter_sensitive_params (params : List (String × PyVal)) :
    List (String × PyVal) :=
  params.foldl (fun filtered kv => dinsert filtered kv.1 (filterValue kv.1 kv.2)) []

/-! ## Lemmas about `dedupByKey` (claim C2) -/

theorem dlookup_eq_none_of_not_mem_keys {α : Type} (d : List (String × α))
    (k : String) (h : k ∉ d.map Prod.fst) : dlookup d k = none := by
  induction d with
  | nil => rfl
  | cons hd tl ih =>
    obtain ⟨k1, v1⟩ := hd
    simp only [List.map_cons, List.mem_cons] at h
    push_neg at h
    have hne : ¬ k1 = k := fun hh => h.1 hh.symm
    simp [dlookup, hne, ih h.2]

theorem dedupByKey_nodup (l : List Param) :
    ∀ seen : List (Option String × Option String),
      ((dedupByKey seen l).map pkey).Nodup ∧
        ∀ x ∈ (dedupByKey seen l).map pkey, x ∉ seen := by
  induction l with
  | nil => intro seen; simp [dedupByKey]
  | cons p rest ih =>
    intro seen
    by_cases h : pkey p ∈ seen
    · simpa [dedupByKey, h] using ih seen
    · have ihp := ih (pkey p :: seen)
      constructor
      · simp only [dedupByKey, h, if_false, List.map_cons, List.nodup_cons]
        refine ⟨fun hmem => ?_, ihp.1⟩
        exact (ihp.2 _ hmem) (List.mem_cons_self _ _)
      · intro x hx
        simp only [dedupByKey, h, if_false, List.map_cons, List.mem_cons] at hx
        rcases hx with rfl | hx
        · exact h
        · intro hxs
          exact (ihp.2 _ hx) (List.mem_cons_of_mem _ hxs)

theorem dedupByKey_find (l : List Param) :
    ∀ (seen : List (Option String × Option String)) (k : Option String × Option String),
      k ∉ seen →
      (dedupByKey seen l).find? (fun p => decide (pkey p = k)) =
        l.find? (fun p => decide (pkey p = k)) := by
  induction l with
  | nil => intro seen k _; rfl
  | cons p rest ih =>
    intro seen k hk
    by_cases h : pkey p ∈ seen
    · have hne : decide (pkey p = k) = false := by
        simp only [decide_eq_false_iff_not]
        exact fun he => hk (he ▸ h)
      rw [show dedupByKey seen (p :: rest) = dedupByKey seen rest from by
        simp [dedupByKey, h]]
      rw [ih seen k hk]
      simp [List.find?_cons, hne]
    · rw [show dedupByKey seen (p :: rest) = p :: dedupByKey (pkey p :: seen) rest from by
        simp [dedupByKey, h]]
      by_cases he : pkey p = k
      · have hpos : decide (pkey p = k) = true := decide_eq_true he
        simp [List.find?_cons, hpos]
      · have hneg : decide (pkey p = k) = false := by
          simp only [decide_eq_false_iff_not]; exact he
        have hk' : k ∉ pkey p :: seen := by
          simp only [List.mem_cons]
          push_neg
          exact ⟨fun hh => he hh.symm, hk⟩
        simp [List.find?_cons, hneg, ih (pkey p :: seen) k hk']

theorem dedupByKey_keys_complete (l : List Param) :
    ∀ (seen : List (Option String × Option String)) (p : Param), p ∈ l →
      pkey p ∈ seen ∨ pkey p ∈ (dedupByKey seen l).map pkey := by
  induction l with
  | nil => intro seen p hp; cases hp
  | cons q rest ih =>
    intro seen p hp
    by_cases h : pkey q ∈ seen
    · rcases List.mem_cons.mp hp with rfl | hp'
      · exact Or.inl h
      · simpa [dedupByKey, h] using ih seen p hp'
    · have hstep : dedupByKey seen (q :: rest) = q :: dedupByKey (pkey q :: seen) rest := by
        simp [dedupByKey, h]
      rcases List.mem_cons.mp hp with rfl | hp'
      · right
        rw [hstep, List.map_cons]
        exact List.mem_cons_self _ _
      · rcases ih (pkey q :: seen) p hp' with hmem | hmem
        · rcases List.mem_cons.mp hmem with he | hs
          · right
            rw [hstep, List.map_cons, he]
            exact List.mem_cons_self _ _
          · exact Or.inl hs
        · right
          rw [hstep, List.map_cons]
          exact List.mem_cons_of_mem _ hmem

/-- C2 (amended): the merged parameter list of `_collect_parameters` is
deduplicated by the `(name, in)` key; for every key, the parameter kept is
the FIRST occurrence over path-level parameters followed by
operation-level parameters — so on a collision the path-level parameter
wins and the operation-level one is dropped; and every declared key is
represented. -/
theorem collect_parameters_dedup_first_wins (pp op : List Param) :
    ((collect_parameters pp op).map pkey).Nodup ∧
    (∀ k, (collect_parameters pp op).find? (fun p => decide (pkey p = k)) =
        (pp ++ op).find? (fun p => decide (pkey p = k))) ∧
    (∀ p, p ∈ pp ++ op → pkey p ∈ (collect_parameters pp op).map pkey) := by
  refine ⟨(dedupByKey_nodup (pp ++ op) []).1, fun k => ?_, fun p hp => ?_⟩
  · exact dedupByKey_find (pp ++ op) [] k (List.not_mem_nil k)
  · rcases dedupByKey_keys_complete (pp ++ op) [] p hp with h | h
    · cases h
    · exact h

/-- Witness for C2's theorem at a concrete input: one path-level and two
operation-level parameters, one of them colliding on `(name, in)`. -/
theorem collect_parameters_dedup_first_wins_witness :
    ((collect_parameters [⟨some "id", some "query", some false⟩]
        [⟨some "id", some "query", some true⟩, ⟨some "limit", some "query", none⟩]).map pkey).Nodup ∧
    pkey (⟨some "limit", some "query", none⟩ : Param) ∈
      (collect_parameters [⟨some "id", some "query", some false⟩]
        [⟨some "id", some "query", some true⟩, ⟨some "limit", some "query", none⟩]).map pkey := by
  have h := collect_parameters_dedup_first_wins
    [⟨some "id", some "query", some false⟩]
    [⟨some "id", some "query", some true⟩, ⟨some "limit", some "query", none⟩]
  exact ⟨h.1, h.2.2 ⟨some "limit", some "query", none⟩ (by decide)⟩

/-- Counterexample to C2 as stated: when a path-level and an
operation-level parameter collide on `(name, in)`, the parameter kept in
the merged list is the path-level one (`required := some false` here);
the operation-level entry (`required := some true`) is dropped. -/
theorem collect_parameters_op_level_loses :
    collect_parameters [⟨some "id", some "query", some false⟩]
        [⟨some "id", some "query", some true⟩] =
      [⟨some "id", some "query", some false⟩] ∧
    (⟨some "id", some "query", some true⟩ : Param) ∉
      collect_parameters [⟨some "id", some "query", some false⟩]
        [⟨some "id", some "query", some true⟩] ∧
    (⟨some "id", some "query", some false⟩ : Param) ≠
      (⟨some "id", some "query", some true⟩ : Param) := by
  refine ⟨rfl, ?_, by decide⟩
  decide

/-! ## Lemmas about the executor's query assembly (claim C1) -/

theorem requiredQueryLoop_lookup (args : List (String × PyVal)) (reqQ : List String) :
    ∀ (q : List (String × PyVal)) (k : String),
      dlookup (requiredQueryLoop args q reqQ) k =
        if k ∈ reqQ ∧ (dlookup args k).isSome then dlookup args k
        else dlookup q k := by
  induction reqQ with
  | nil => intro q k; simp [requiredQueryLoop]
  | cons a t ih =>
    intro q k
    have hstep : requiredQueryLoop args q (a :: t) =
        requiredQueryLoop args
          (match dlookup args a with
           | some v => dinsert q a v
           | none => q) t := rfl
    rw [hstep, ih]
    by_cases hk : k = a
    · subst hk
      rcases hA : dlookup args k with _ | v
      · simp [hA]
      · by_cases ht : k ∈ t
        · simp [hA, ht]
        · simp [hA, ht, dlookup_dinsert]
    · have hmem : k ∈ a :: t ↔ k ∈ t := by
        simp [List.mem_cons, fun hh => hk hh]
      rcases hA : dlookup args a with _ | v
      · simp [hmem]
      · have hne : ¬ a = k := fun hh => hk hh.symm
        simp [hmem, dlookup_dinsert, hne]

theorem optionalQueryLoop_lookup (args : List (String × PyVal)) (optQ : List String) :
    ∀ (q : List (String × PyVal)) (k : String),
      dlookup (optionalQueryLoop args q optQ) k =
        if k ∈ optQ ∧ (∃ v, dlookup args k = some v ∧ v ≠ PyVal.null) then dlookup args k
        else dlookup q k := by
  induction optQ with
  | nil => intro q k; simp [optionalQueryLoop]
  | cons a t ih =>
    intro q k
    have hstep : optionalQueryLoop args q (a :: t) =
        optionalQueryLoop args
          (match dlookup args a with
           | some v => if v = PyVal.null then q else dinsert q a v
           | none => q) t := rfl
    rw [hstep, ih]
    by_cases hk : k = a
    · subst hk
      rcases hA : dlookup args k with _ | v
      · simp [hA]
      · by_cases hnull : v = PyVal.null
        · subst hnull
          simp [hA]
        · by_cases ht : k ∈ t
          · simp [hA, ht, hnull]
          · simp [hA, ht, hnull, dlookup_dinsert]
    · have hmem : k ∈ a :: t ↔ k ∈ t := by
        simp [List.mem_cons, fun hh => hk hh]
      rcases hA : dlookup args a with _ | v
      · simp [hmem]
      · by_cases hnull : v = PyVal.null
        · subst hnull
          simp [hmem]
        · have hne : ¬ a = k := fun hh => hk hh.symm
          simp [hmem, hnull, dlookup_dinsert, hne]

theorem authUpdateLoop_lookup (auth : List (String × String)) :
    (auth.map Prod.fst).Nodup →
    ∀ (q : List (String × PyVal)) (k : String),
      dlookup (authUpdateLoop q auth) k =
        match dlookup auth k with
        | some v => some (PyVal.str v)
        | none => dlookup q k := by
  induction auth with
  | nil => intro _ q k; rfl
  | cons hd t ih =>
    intro hnd q k
    obtain ⟨a, w⟩ := hd
    simp only [List.map_cons, List.nodup_cons] at hnd
    have hstep : authUpdateLoop q ((a, w) :: t) =
        authUpdateLoop (dinsert q a (PyVal.str w)) t := rfl
    rw [hstep, ih hnd.2]
    by_cases hk : k = a
    · subst hk
      have ht : dlookup t k = none :=
        dlookup_eq_none_of_not_mem_keys t k hnd.1
      simp [dlookup, ht, dlookup_dinsert]
    · have hne : ¬ a = k := fun hh => hk hh.symm
      rcases hT : dlookup t k with _ | v <;>
        simp [dlookup, hT, dlookup_dinsert, hne]

theorem merge_auth_lookup_aux (auth : List (String × String)) :
    ∀ (m : List (String × PyVal)) (k : String),
      dlookup (auth.foldl (fun m kv => dsetdefault m kv.1 (PyVal.str kv.2)) m) k =
        match dlookup m k with
        | some v => some v
        | none => (dlookup auth k).map PyVal.str := by
  induction auth with
  | nil =>
    intro m k
    rcases hm : dlookup m k with _ | v <;> simp [hm, dlookup]
  | cons hd t ih =>
    intro m k
    obtain ⟨a, w⟩ := hd
    have hstep : ((a, w) :: t).foldl (fun m kv => dsetdefault m kv.1 (PyVal.str kv.2)) m =
        t.foldl (fun m kv => dsetdefault m kv.1 (PyVal.str kv.2))
          (dsetdefault m a (PyVal.str w)) := rfl
    rw [hstep, ih]
    rcases hm : dlookup m k with _ | v
    · by_cases hk : k = a
      · subst hk
        have : dlookup (dsetdefault m k (PyVal.str w)) k = some (PyVal.str w) := by
          simp only [dsetdefault, hm, Option.isSome_none, Bool.false_eq_true, if_false]
          rw [dlookup_append, hm]
          simp [dlookup]
        simp [this, dlookup, hm]
      · have hne : ¬ a = k := fun hh => hk hh.symm
        have : dlookup (dsetdefault m a (PyVal.str w)) k = none := by
          by_cases hsa : (dlookup m a).isSome
          · simp [dsetdefault, hsa, hm]
          · rw [show dsetdefault m a (PyVal.str w) = m ++ [(a, PyVal.str w)] from by
              simp [dsetdefault, hsa]]
            rw [dlookup_append, hm]
            simp [dlookup, hne]
        simp [this, dlookup, hne]
    · have : dlookup (dsetdefault m a (PyVal.str w)) k = some v := by
        by_cases hsa : (dlookup m a).isSome
        · simp [dsetdefault, hsa, hm]
        · rw [show dsetdefault m a (PyVal.str w) = m ++ [(a, PyVal.str w)] from by
            simp [dsetdefault, hsa]]
          rw [dlookup_append, hm]
      simp [this]

/-- C1 (amended): the query dict assembled by `_execute_request` is the
union of the required query arguments, the present non-`None` optional
query arguments, and the projected auth query parameters — but
`query.update(auth_params())` means an auth value OVERWRITES a
caller-supplied value of the same name (auth wins, not the caller).  The
caller-wins merge the claim describes exists only in `server._merge_auth`
(used by `api_request`), whose `setdefault` semantics the second conjunct
characterizes. -/
theorem execute_request_query_characterization
    (reqQ optQ : List String) (args : List (String × PyVal))
    (auth : List (String × String)) (k : String)
    (hauth : (auth.map Prod.fst).Nodup) :
    (dlookup (buildQuery reqQ optQ args auth) k =
      match dlookup auth k with
      | some v => some (PyVal.str v)
      | none =>
        match dlookup args k with
        | some v =>
          if k ∈ reqQ then some v
          else if k ∈ optQ ∧ v ≠ PyVal.null then some v
          else none
        | none => none) ∧
    (∀ (params : Option (List (String × PyVal))) (k' : String),
      dlookup (merge_auth params auth) k' =
        match dlookup (params.getD []) k' with
        | some v => some v
        | none => (dlookup auth k').map PyVal.str) := by
  constructor
  · rw [show buildQuery reqQ optQ args auth =
        authUpdateLoop (optionalQueryLoop args (requiredQueryLoop args [] reqQ) optQ) auth
      from rfl]
    rw [authUpdateLoop_lookup auth hauth]
    rcases dlookup auth k with _ | v
    · rw [optionalQueryLoop_lookup, requiredQueryLoop_lookup]
      rcases hA : dlookup args k with _ | v
      · simp [hA, dlookup]
      · by_cases hopt : k ∈ optQ ∧ v ≠ PyVal.null
        · have : k ∈ optQ ∧ ∃ w, dlookup args k = some w ∧ w ≠ PyVal.null :=
            ⟨hopt.1, v, hA, hopt.2⟩
          by_cases hreq : k ∈ reqQ <;> simp [this, hA, hopt]
        · have : ¬ (k ∈ optQ ∧ ∃ w, dlookup args k = some w ∧ w ≠ PyVal.null) := by
            rintro ⟨h1, w, hw, h2⟩
            rw [hA] at hw
            cases hw
            exact hopt ⟨h1, h2⟩
          by_cases hreq : k ∈ reqQ <;> simp [this, hA, hopt, hreq, dlookup]
    · rfl
  · intro params k'
    exact merge_auth_lookup_aux auth (params.getD []) k'

/-- Witness for C1's theorem at a concrete input. -/
theorem execute_request_query_characterization_witness :
    dlookup (buildQuery ["q"] ["o"] [("q", PyVal.str "qv"), ("o", PyVal.null)]
        [("t", "tok")]) "o" =
      match dlookup [("t", "tok")] "o" with
      | some v => some (PyVal.str v)
      | none =>
        match dlookup [("q", PyVal.str "qv"), ("o", PyVal.null)] "o" with
        | some v =>
          if "o" ∈ ["q"] then some v
          else if "o" ∈ ["o"] ∧ v ≠ PyVal.null then some v
          else none
        | none => none :=
  (execute_request_query_characterization ["q"] ["o"]
    [("q", PyVal.str "qv"), ("o", PyVal.null)] [("t", "tok")] "o" (by decide)).1

/-- Counterexample to C1 as stated: a caller-supplied required query
argument `q = "caller"` is overwritten by the auth parameter
`q = "auth"` — the assembled query maps `q` to the auth value, so the
caller does NOT win. -/
theorem execute_request_query_auth_overwrites :
    dlookup (buildQuery ["q"] [] [("q", PyVal.str "caller")] [("q", "auth")]) "q" =
      some (PyVal.str "auth") ∧
    some (PyVal.str "auth") ≠ some (PyVal.str "caller") := by
  constructor
  · rfl
  · decide

/-! ## Claim C3 — validation before any network call -/

/-- C3 (amended): whenever some required path or query parameter is absent
from `args`, `_execute_request` raises a `ValueError` before the HTTP
client is ever invoked (`Except.error`, no `PreparedRequest` is built).
The raised error lists exactly the missing required PATH names when at
least one path name is missing; only otherwise does it list exactly the
missing required QUERY names — the two sets are never reported together. -/
theorem execute_request_validation (pathTemplate : String)
    (reqP reqQ optQ : List String)
    (authParams authHeaders : List (String × String))
    (hasRequestBody : Bool) (args : List (String × PyVal))
    (h : ∃ p, p ∈ reqP ++ reqQ ∧ dcontains args p = false) :
    ∃ l, execute_request_prep pathTemplate reqP reqQ optQ authParams authHeaders
        hasRequestBody args = .error l ∧
      l ≠ [] ∧
      ((∃ p ∈ reqP, dcontains args p = false) →
        ∀ q, q ∈ l ↔ (q ∈ reqP ∧ dcontains args q = false)) ∧
      ((∀ p ∈ reqP, dcontains args p = true) →
        ∀ q, q ∈ l ↔ (q ∈ reqQ ∧ dcontains args q = false)) := by
  by_cases hmp : reqP.filter (fun p => ! dcontains args p) = []
  · have hall : ∀ p ∈ reqP, dcontains args p = true := by
      intro p hp
      by_contra hc
      have : p ∈ reqP.filter (fun p => ! dcontains args p) := by
        rw [List.mem_filter]
        exact ⟨hp, by simp [Bool.not_eq_true] at hc ⊢; exact hc⟩
      rw [hmp] at this
      cases this
    obtain ⟨p0, hp0, hc0⟩ := h
    have hp0q : p0 ∈ reqQ := by
      rcases List.mem_append.mp hp0 with hP | hQ
      · rw [hall p0 hP] at hc0; cases hc0
      · exact hQ
    have hmq : reqQ.filter (fun p => ! dcontains args p) ≠ [] := by
      intro hnil
      have : p0 ∈ reqQ.filter (fun p => ! dcontains args p) := by
        rw [List.mem_filter]
        exact ⟨hp0q, by simp [hc0]⟩
      rw [hnil] at this
      cases this
    refine ⟨reqQ.filter (fun p => ! dcontains args p), ?_, hmq, ?_, ?_⟩
    · simp only [execute_request_prep, hmp, ne_eq, not_true_eq_false, if_false,
        if_true, hmq, not_false_eq_true]
    · rintro ⟨p1, hp1, hc1⟩
      rw [hall p1 hp1] at hc1
      cases hc1
    · intro _ q
      rw [List.mem_filter]
      simp [Bool.not_eq_true]
  · refine ⟨reqP.filter (fun p => ! dcontains args p), ?_, hmp, ?_, ?_⟩
    · simp only [execute_request_prep, ne_eq, hmp, not_false_eq_true, if_true]
    · intro _ q
      rw [List.mem_filter]
      simp [Bool.not_eq_true]
    · intro hall
      exfalso
      apply hmp
      rw [List.filter_eq_nil_iff]
      intro p hp
      simp [hall p hp]

/-- Witness for C3's theorem: required path `id` present, required query
`q` absent — the error lists exactly `["q"]`. -/
theorem execute_request_validation_witness :
    ∃ l, execute_request_prep "/items/\x7bid\x7d" ["id"] ["q"] [] [] [] false
        [("id", PyVal.str "7")] = .error l ∧
      l ≠ [] ∧ (("q" ∈ l) ↔ True) := by
  obtain ⟨l, he, hne, _, hq⟩ :=
    execute_request_validation "/items/\x7bid\x7d" ["id"] ["q"] [] [] [] false
      [("id", PyVal.str "7")] ⟨"q", by decide, by decide⟩
  refine ⟨l, he, hne, ?_⟩
  rw [hq (by decide) "q"]
  decide

/-- Counterexample to C3 as stated: with required path `["id"]` and
required query `["q"]` both missing, the raised error lists only the
missing path names `["id"]`; the missing query name `q` is not reported,
so the failure does not list all missing required names together. -/
theorem execute_request_validation_partial_report :
    execute_request_prep "/x/\x7bid\x7d" ["id"] ["q"] [] [] [] false [] =
      .error ["id"] ∧
    dcontains ([] : List (String × PyVal)) "q" = false ∧
    "q" ∉ ["id"] := by
  refine ⟨rfl, rfl, by decide⟩

/-! ## Claim C4 — uniqueness and length of registered tool names -/

theorem strMk_length (l : List Char) : (String.mk l).length = l.length := rfl

theorem pySliceTo_length_le (s : String) (n : Int) (h : 0 ≤ n) :
    (pySliceTo s n).length ≤ n.toNat := by
  rw [pySliceTo, if_pos h, strMk_length]
  simp [List.length_take]

theorem rstripUnderscores_length_le (s : String) :
    (rstripUnderscores s).length ≤ s.length := by
  rw [rstripUnderscores, strMk_length, List.length_reverse]
  calc (s.toList.reverse.dropWhile (fun c => c = '_')).length
      ≤ s.toList.reverse.length := (List.dropWhile_sublist _).length_le
    _ = s.length := by rw [List.length_reverse]; rfl

theorem truncateName_length_le (clean : String) (m : Int) (h : 0 ≤ m) :
    ((truncateName clean m).length : Int) ≤ m := by
  rw [truncateName]
  by_cases hlen : m < (clean.length : Int)
  · rw [if_pos hlen]
    have h1 : (rstripUnderscores (pySliceTo clean m)).length ≤ (pySliceTo clean m).length :=
      rstripUnderscores_length_le _
    have h2 : (pySliceTo clean m).length ≤ m.toNat := pySliceTo_length_le clean m h
    have := le_trans h1 h2
    omega
  · rw [if_neg hlen]
    omega

theorem sanitize_name_length_le (s : String) (m : Int) (h : 0 ≤ m) :
    ((sanitize_name s m).length : Int) ≤ m :=
  truncateName_length_le _ m h

theorem toolNameFor_length_le (pfx path method : String) (op : PyOp)
    (h : pfx.length + 1 ≤ 64) :
    (toolNameFor pfx (64 - ((pfx.length : Int) + 1)) path method op).length ≤ 64 := by
  rw [toolNameFor]
  rw [String.length_append, String.length_append]
  have hm : (0 : Int) ≤ 64 - ((pfx.length : Int) + 1) := by omega
  have := sanitize_name_length_le
    (match op.operationId with
      | some s => if s = "" then method ++ "_" ++ path else s
      | none => method ++ "_" ++ path)
    (64 - ((pfx.length : Int) + 1)) hm
  have hu : ("_" : String).length = 1 := rfl
  omega

theorem registerLoop_nodup (pfx : String) (m : Int) :
    ∀ (l : List (String × String × PyOp)) (seen : List String),
      seen.Nodup → (registerLoop pfx m l seen).Nodup := by
  intro l
  induction l with
  | nil => intro seen h; exact h
  | cons e rest ih =>
    intro seen h
    obtain ⟨path, method, op⟩ := e
    by_cases h1 : pyLower method ∈ recognizedMethods
    · by_cases h2 : op.isDict = true
      · by_cases h3 : toolNameFor pfx m path method op ∈ seen
        · simpa [registerLoop, h1, h2, h3] using ih seen h
        · have hns : (seen ++ [toolNameFor pfx m path method op]).Nodup := by
            rw [List.nodup_append]
            refine ⟨h, List.nodup_singleton _, ?_⟩
            intro a ha hb
            rw [List.mem_singleton] at hb
            subst hb
            exact h3 ha
          simpa [registerLoop, h1, h2, h3] using
            ih (seen ++ [toolNameFor pfx m path method op]) hns
      · simpa [registerLoop, h1, h2] using ih seen h
    · simpa [registerLoop, h1] using ih seen h

theorem registerLoop_all (pfx : String) (m : Int) (P : String → Prop)
    (hP : ∀ path method op, P (toolNameFor pfx m path method op)) :
    ∀ (l : List (String × String × PyOp)) (seen : List String),
      (∀ n ∈ seen, P n) → ∀ n ∈ registerLoop pfx m l seen, P n := by
  intro l
  induction l with
  | nil => intro seen h; exact h
  | cons e rest ih =>
    intro seen h
    obtain ⟨path, method, op⟩ := e
    by_cases h1 : pyLower method ∈ recognizedMethods
    · by_cases h2 : op.isDict = true
      · by_cases h3 : toolNameFor pfx m path method op ∈ seen
        · simpa [registerLoop, h1, h2, h3] using ih seen h
        · have hseen : ∀ n ∈ seen ++ [toolNameFor pfx m path method op], P n := by
            intro n hn
            rcases List.mem_append.mp hn with hn | hn
            · exact h n hn
            · rw [List.mem_singleton] at hn
              subst hn
              exact hP path method op
          simpa [registerLoop, h1, h2, h3] using
            ih (seen ++ [toolNameFor pfx m path method op]) hseen
      · simpa [registerLoop, h1, h2] using ih seen h
    · simpa [registerLoop, h1] using ih seen h

/-- C4 (amended): `register_openapi_tools` never registers two operations
with the same final tool name (on a collision the first registration wins
and the later operation is skipped), and — PROVIDED the configured prefix
leaves a non-negative name budget, `len(prefix) + 1 ≤ 64` — every
registered tool name, prefix included, has length at most 64.  (With a
longer prefix `max_name_len` is negative, the Python slice
`clean[:max_name_len]` counts from the end, and registered names can
exceed 64 characters; see the counterexample.) -/
theorem register_names_unique_and_bounded (pfx : String)
    (paths : List (String × PathItem)) :
    (register_openapi_tools pfx paths).Nodup ∧
    (pfx.length + 1 ≤ 64 →
      ∀ n ∈ register_openapi_tools pfx paths, n.length ≤ 64) := by
  constructor
  · exact registerLoop_nodup pfx _ _ [] List.nodup_nil
  · intro h
    exact registerLoop_all pfx _ (fun n => n.length ≤ 64)
      (fun path method op => toolNameFor_length_le pfx path method op h)
      _ [] (by intro n hn; cases hn)

/-- Witness for C4's theorem at a concrete spec: two operations whose
`operationId`s sanitize to the same name (only the first is kept), plus a
distinct one; the registered list is duplicate-free and the registered
name `api_getitem` is within the bound. -/
theorem register_names_unique_and_bounded_witness :
    (register_openapi_tools "api"
      [("/items/\x7bid\x7d",
        ⟨[], [("get", ⟨true, some "getItem", [], false⟩),
              ("delete", ⟨true, some "get-item", [], false⟩),
              ("post", ⟨true, some "createItem", [], true⟩)]⟩)]).Nodup ∧
    "api_getitem" ∈ register_openapi_tools "api"
      [("/items/\x7bid\x7d",
        ⟨[], [("get", ⟨true, some "getItem", [], false⟩),
              ("delete", ⟨true, some "get-item", [], false⟩),
              ("post", ⟨true, some "createItem", [], true⟩)]⟩)] ∧
    ("api_getitem" : String).length ≤ 64 := by
  have h := register_names_unique_and_bounded "api"
    [("/items/\x7bid\x7d",
      ⟨[], [("get", ⟨true, some "getItem", [], false⟩),
            ("delete", ⟨true, some "get-item", [], false⟩),
            ("post", ⟨true, some "createItem", [], true⟩)]⟩)]
  exact ⟨h.1, by decide, h.2 (by decide) "api_getitem" (by decide)⟩

/-- Counterexample to C4 as stated: with a 64-character prefix the name
budget `64 - (len(prefix) + 1)` is `-1`; `"getitem"[:-1]` keeps 6
characters and the registered name has length 71 > 64. -/
theorem register_name_exceeds_bound :
    ¬ (∀ n ∈ register_openapi_tools
        "aaaaaaaaaaaaaaaaaaaaaaaaaaaaaaaaaaaaaaaaaaaaaaaaaaaaaaaaaaaaaaaa"
        [("/items", ⟨[], [("get", ⟨true, some "getItem", [], false⟩)]⟩)],
      n.length ≤ 64) := by
  decide

/-! ## Claims C5 and C6 — the retry loop -/

theorem retryGo_exhaust {α : Type} (calls : Nat → Outcome α) (retryable : List Nat)
    (baseDelay maxDelay : ℚ) (u : Nat → ℚ) :
    ∀ (r i : Nat) (last : Option RErr) (acc : List (Nat × ℚ)),
      1 ≤ r →
      (∀ j, j < r → isRetryableFailure retryable (calls (i + j)) = true) →
      (retryGo calls retryable baseDelay maxDelay u i r last acc).result =
          .error (errOf (calls (i + r - 1))) ∧
        (retryGo calls retryable baseDelay maxDelay u i r last acc).callsMade = i + r := by
  intro r
  induction r with
  | zero => intro i last acc h; omega
  | succ r' ih =>
    intro i last acc _ hall
    have h0 := hall 0 (Nat.succ_pos r')
    rw [Nat.add_zero] at h0
    rcases Nat.eq_zero_or_pos r' with hr' | hr'
    · subst hr'
      have hidx : i + (0 + 1) - 1 = i := by omega
      rw [hidx]
      cases hc : calls i with
      | success v => rw [hc] at h0; cases h0
      | httpError s =>
        rw [hc] at h0
        have hs : s ∈ retryable := by simpa [isRetryableFailure] using h0
        simp [retryGo, hc, hs, errOf]
      | connectError =>
        simp [retryGo, hc, errOf]
      | timeoutError =>
        simp [retryGo, hc, errOf]
      | otherError => rw [hc] at h0; cases h0
    · have hall' : ∀ j, j < r' → isRetryableFailure retryable (calls (i + 1 + j)) = true := by
        intro j hj
        have := hall (j + 1) (by omega)
        rwa [show i + (j + 1) = i + 1 + j from by omega] at this
      have hidx : i + 1 + r' - 1 = i + (r' + 1) - 1 := by omega
      cases hc : calls i with
      | success v => rw [hc] at h0; cases h0
      | httpError s =>
        rw [hc] at h0
        have hs : s ∈ retryable := by simpa [isRetryableFailure] using h0
        obtain ⟨h1, h2⟩ := ih (i + 1) (some (.http s)) _ hr' hall'
        rw [hidx] at h1
        simp only [retryGo, hc, hs, if_true]
        exact ⟨h1, by omega⟩
      | connectError =>
        obtain ⟨h1, h2⟩ := ih (i + 1) (some .connect) _ hr' hall'
        rw [hidx] at h1
        simp only [retryGo, hc]
        exact ⟨h1, by omega⟩
      | timeoutError =>
        obtain ⟨h1, h2⟩ := ih (i + 1) (some .timeout) _ hr' hall'
        rw [hidx] at h1
        simp only [retryGo, hc]
        exact ⟨h1, by omega⟩
      | otherError => rw [hc] at h0; cases h0

theorem retryGo_immediate {α : Type} (calls : Nat → Outcome α) (retryable : List Nat)
    (baseDelay maxDelay : ℚ) (u : Nat → ℚ) :
    ∀ (k r i : Nat) (last : Option RErr) (acc : List (Nat × ℚ)),
      k < r →
      (∀ j, j < k → isRetryableFailure retryable (calls (i + j)) = true) →
      isImmediateRaise retryable (calls (i + k)) = true →
      (retryGo calls retryable baseDelay maxDelay u i r last acc).result =
          .error (errOf (calls (i + k))) ∧
        (retryGo calls retryable baseDelay maxDelay u i r last acc).callsMade = i + k + 1 := by
  intro k
  induction k with
  | zero =>
    intro r i last acc hkr _ hraise
    obtain ⟨r', rfl⟩ : ∃ r', r = r' + 1 := ⟨r - 1, by omega⟩
    rw [Nat.add_zero] at hraise ⊢
    cases hc : calls i with
    | success v => rw [hc] at hraise; cases hraise
    | httpError s =>
      rw [hc] at hraise
      have hs : s ∉ retryable := by simpa [isImmediateRaise] using hraise
      simp [retryGo, hc, hs, errOf]
    | connectError => rw [hc] at hraise; cases hraise
    | timeoutError => rw [hc] at hraise; cases hraise
    | otherError =>
      simp [retryGo, hc, errOf]
  | succ k' ih =>
    intro r i last acc hkr hall hraise
    obtain ⟨r', rfl⟩ : ∃ r', r = r' + 1 := ⟨r - 1, by omega⟩
    have h0 := hall 0 (Nat.succ_pos k')
    rw [Nat.add_zero] at h0
    have hall' : ∀ j, j < k' → isRetryableFailure retryable (calls (i + 1 + j)) = true := by
      intro j hj
      have := hall (j + 1) (by omega)
      rwa [show i + (j + 1) = i + 1 + j from by omega] at this
    have hraise' : isImmediateRaise retryable (calls (i + 1 + k')) = true := by
      rwa [show i + 1 + k' = i + (k' + 1) from by omega]
    have hidx : i + 1 + k' = i + (k' + 1) := by omega
    cases hc : calls i with
    | success v => rw [hc] at h0; cases h0
    | httpError s =>
      rw [hc] at h0
      have hs : s ∈ retryable := by simpa [isRetryableFailure] using h0
      obtain ⟨h1, h2⟩ := ih r' (i + 1) (some (.http s)) _ (by omega) hall' hraise'
      rw [hidx] at h1
      simp only [retryGo, hc, hs, if_true]
      exact ⟨h1, by omega⟩
    | connectError =>
      obtain ⟨h1, h2⟩ := ih r' (i + 1) (some .connect) _ (by omega) hall' hraise'
      rw [hidx] at h1
      simp only [retryGo, hc]
      exact ⟨h1, by omega⟩
    | timeoutError =>
      obtain ⟨h1, h2⟩ := ih r' (i + 1) (some .timeout) _ (by omega) hall' hraise'
      rw [hidx] at h1
      simp only [retryGo, hc]
      exact ⟨h1, by omega⟩
    | otherError => rw [hc] at h0; cases h0

/-- C5: `with_retry` (i) raises a non-retryable outcome — an HTTP status
outside the retryable set, or an exception its `except` clauses do not
catch — immediately: after `k` retryable failures followed by such an
outcome it has made exactly `k + 1` calls and surfaces that error; and
(ii) when every attempt fails retryably (retryable status, connect or
timeout) it makes exactly `maxAttempts` calls and surfaces the LAST
observed error as the terminal failure. -/
theorem with_retry_policy {α : Type} (calls : Nat → Outcome α)
    (retryable : List Nat) (baseDelay maxDelay : ℚ) (u : Nat → ℚ)
    (maxAttempts : Nat) :
    (∀ k, k < maxAttempts →
      (∀ j, j < k → isRetryableFailure retryable (calls j) = true) →
      isImmediateRaise retryable (calls k) = true →
      (with_retry calls retryable baseDelay maxDelay u maxAttempts).result =
          .error (errOf (calls k)) ∧
        (with_retry calls retryable baseDelay maxDelay u maxAttempts).callsMade = k + 1) ∧
    (1 ≤ maxAttempts →
      (∀ j, j < maxAttempts → isRetryableFailure retryable (calls j) = true) →
      (with_retry calls retryable baseDelay maxDelay u maxAttempts).result =
          .error (errOf (calls (maxAttempts - 1))) ∧
        (with_retry calls retryable baseDelay maxDelay u maxAttempts).callsMade = maxAttempts) := by
  constructor
  · intro k hk hall hraise
    have := retryGo_immediate calls retryable baseDelay maxDelay u k maxAttempts 0 none []
      hk (by simpa using hall) (by simpa using hraise)
    simpa [with_retry] using this
  · intro h1 hall
    have := retryGo_exhaust calls retryable baseDelay maxDelay u maxAttempts 0 none []
      h1 (by simpa using hall)
    simpa [with_retry] using this

/-- Witness for C5's theorem, both conjuncts at concrete oracles: one 503
then a 400 raises the 400 after exactly 2 calls; three straight 503s
exhaust `maxAttempts = 3` and surface the last 503. -/
theorem with_retry_policy_witness :
    ((with_retry (fun i => if i = 0 then Outcome.httpError 503 else (Outcome.httpError 400 : Outcome Nat))
        RETRYABLE_STATUS_CODES 1 30 (fun _ => 0) 3).result = .error (RErr.http 400) ∧
      (with_retry (fun i => if i = 0 then Outcome.httpError 503 else (Outcome.httpError 400 : Outcome Nat))
        RETRYABLE_STATUS_CODES 1 30 (fun _ => 0) 3).callsMade = 2) ∧
    ((with_retry (fun _ => (Outcome.httpError 503 : Outcome Nat))
        RETRYABLE_STATUS_CODES 1 30 (fun _ => 0) 3).result = .error (RErr.http 503) ∧
      (with_retry (fun _ => (Outcome.httpError 503 : Outcome Nat))
        RETRYABLE_STATUS_CODES 1 30 (fun _ => 0) 3).callsMade = 3) := by
  constructor
  · have := (with_retry_policy
      (fun i => if i = 0 then Outcome.httpError 503 else (Outcome.httpError 400 : Outcome Nat))
      RETRYABLE_STATUS_CODES 1 30 (fun _ => 0) 3).1 1 (by decide)
      (by decide) (by decide)
    simpa using this
  · have := (with_retry_policy (fun _ => (Outcome.httpError 503 : Outcome Nat))
      RETRYABLE_STATUS_CODES 1 30 (fun _ => 0) 3).2 (by decide) (by decide)
    simpa using this

theorem retryGo_sleeps {α : Type} (calls : Nat → Outcome α) (retryable : List Nat)
    (baseDelay maxDelay : ℚ) (u : Nat → ℚ) :
    ∀ (r i : Nat) (last : Option RErr) (acc : List (Nat × ℚ))
      (e : Nat × ℚ),
      e ∈ (retryGo calls retryable baseDelay maxDelay u i r last acc).sleeps →
      e ∈ acc ∨
        (i ≤ e.1 ∧ e.1 + 1 < i + r ∧
          e.2 = backoffDelay baseDelay maxDelay e.1 + u e.1) := by
  intro r
  induction r with
  | zero => intro i last acc e he; exact Or.inl he
  | succ r' ih =>
    intro i last acc e he
    have hstep : ∀ (newLast : RErr),
        e ∈ (retryGo calls retryable baseDelay maxDelay u (i + 1) r' (some newLast)
            (acc ++ if 1 ≤ r' then [(i, backoffDelay baseDelay maxDelay i + u i)] else [])).sleeps →
        e ∈ acc ∨
          (i ≤ e.1 ∧ e.1 + 1 < i + (r' + 1) ∧
            e.2 = backoffDelay baseDelay maxDelay e.1 + u e.1) := by
      intro newLast hmem
      rcases ih (i + 1) (some newLast) _ e hmem with hacc | ⟨hge, hlt, hval⟩
      · rcases List.mem_append.mp hacc with h | h
        · exact Or.inl h
        · by_cases hr1 : 1 ≤ r'
          · rw [if_pos hr1, List.mem_singleton] at h
            subst h
            exact Or.inr ⟨le_refl i, by omega, rfl⟩
          · rw [if_neg hr1] at h
            cases h
      · exact Or.inr ⟨by omega, by omega, hval⟩
    cases hc : calls i with
    | success v =>
      simp only [retryGo, hc] at he
      exact Or.inl he
    | httpError s =>
      by_cases hs : s ∈ retryable
      · simp only [retryGo, hc, hs, if_true] at he
        exact hstep (.http s) he
      · simp only [retryGo, hc, hs, if_false] at he
        exact Or.inl he
    | connectError =>
      simp only [retryGo, hc] at he
      exact hstep .connect he
    | timeoutError =>
      simp only [retryGo, hc] at he
      exact hstep .timeout he
    | otherError =>
      simp only [retryGo, hc] at he
      exact Or.inl he

/-- C6: every delay `with_retry` sleeps after the 0-indexed attempt `i`
equals `min(base_delay * 2^i, max_delay)` plus the jitter draw
`random.uniform(0, delay * 0.1)`; whenever that draw lies in
`[0, delay/10]` the slept delay lies in `[delay, 1.1 * delay]`; and no
delay is slept after the final attempt (`i + 1 < maxAttempts`). -/
theorem with_retry_backoff {α : Type} (calls : Nat → Outcome α)
    (retryable : List Nat) (baseDelay maxDelay : ℚ) (u : Nat → ℚ)
    (maxAttempts i : Nat) (d : ℚ)
    (hmem : (i, d) ∈ (with_retry calls retryable baseDelay maxDelay u maxAttempts).sleeps)
    (h0 : 0 ≤ u i) (h1 : u i ≤ backoffDelay baseDelay maxDelay i / 10) :
    d = backoffDelay baseDelay maxDelay i + u i ∧
    backoffDelay baseDelay maxDelay i ≤ d ∧
    d ≤ (11 / 10 : ℚ) * backoffDelay baseDelay maxDelay i ∧
    i + 1 < maxAttempts := by
  rcases retryGo_sleeps calls retryable baseDelay maxDelay u maxAttempts 0 none [] (i, d)
      hmem with hacc | ⟨_, hlt, hval⟩
  · cases hacc
  · simp only at hval hlt
    refine ⟨hval, ?_, ?_, by omega⟩
    · rw [hval]; linarith
    · rw [hval]; linarith

/-- Witness for C6's theorem: three 503s with `baseDelay = 1`,
`maxDelay = 30`, zero jitter; the sleep after attempt 1 is exactly
`min(1 * 2^1, 30) = 2`. -/
theorem with_retry_backoff_witness :
    (1, (2 : ℚ)) ∈ (with_retry (fun _ => (Outcome.httpError 503 : Outcome Nat))
        RETRYABLE_STATUS_CODES 1 30 (fun _ => 0) 3).sleeps ∧
    (2 : ℚ) = backoffDelay 1 30 1 + 0 ∧
    1 + 1 < 3 := by
  have hmem : ((1 : Nat), (2 : ℚ)) ∈ (with_retry (fun _ => (Outcome.httpError 503 : Outcome Nat))
      RETRYABLE_STATUS_CODES 1 30 (fun _ => 0) 3).sleeps := by
    have : (with_retry (fun _ => (Outcome.httpError 503 : Outcome Nat))
        RETRYABLE_STATUS_CODES 1 30 (fun _ => 0) 3).sleeps =
        [(0, backoffDelay 1 30 0 + 0), (1, backoffDelay 1 30 1 + 0)] := rfl
    rw [this]
    have h2 : backoffDelay 1 30 1 + 0 = (2 : ℚ) := by
      rw [backoffDelay]
      norm_num
    rw [h2]
    exact List.mem_cons_of_mem _ (List.mem_singleton.mpr rfl)
  have := with_retry_backoff (fun _ => (Outcome.httpError 503 : Outcome Nat))
    RETRYABLE_STATUS_CODES 1 30 (fun _ => 0) 3 1 2 hmem (le_refl 0)
    (by rw [backoffDelay]; norm_num)
  exact ⟨hmem, this.1, this.2.2.2⟩

/-! ## Claims C7 and C8 — the credential cache -/

/-- C7: two `authenticate` calls with the same JWT: when the first call
finds no valid cache entry and its gateway fetch succeeds, it performs
exactly one fetch and stores the result; when the stored entry has not
expired at the time of the second call, that call performs ZERO fetches
(its gateway-response oracle `resp2` is arbitrary and unused), returns
the stored `APICredentials` unchanged, and leaves the state unchanged —
one external fetch in total. -/
theorem authenticate_second_call_cached (svc : String) (expected : List String)
    (cacheTtl t1 t2 : Int) (jwt : String) (resp1 resp2 : GatewayResponse)
    (st0 : AuthState) (creds : APICredentials)
    (h0 : cacheValid t1 st0 jwt = false)
    (h1 : fetch_from_gateway svc expected cacheTtl t1 resp1 = .ok creds)
    (h2 : creds.is_expired t2 = false) :
    authenticate svc expected cacheTtl t1 jwt resp1 st0 =
      (.ok creds, ⟨dinsert st0.cache jwt creds, some jwt⟩, 1) ∧
    authenticate svc expected cacheTtl t2 jwt resp2
        ⟨dinsert st0.cache jwt creds, some jwt⟩ =
      (.ok creds, ⟨dinsert st0.cache jwt creds, some jwt⟩, 0) := by
  have hfirst : authenticate svc expected cacheTtl t1 jwt resp1 st0 =
      (.ok creds, ⟨dinsert st0.cache jwt creds, some jwt⟩, 1) := by
    rcases hcache : dlookup st0.cache jwt with _ | cached
    · simp only [authenticate, hcache, authFetch, h1]
    · have hexp : cached.is_expired t1 = true := by
        rw [cacheValid, hcache] at h0
        simpa using h0
      simp only [authenticate, hcache, hexp, if_true, authFetch, h1]
  refine ⟨hfirst, ?_⟩
  have hl : dlookup (dinsert st0.cache jwt creds) jwt = some creds := by
    rw [dlookup_dinsert]
    simp
  simp only [authenticate, hl, h2, Bool.false_eq_true, if_false]

/-- Witness for C7's theorem at concrete inputs: empty cache, a
successful fetch of one credential at time 0 with TTL 3600, second call
at time 10. -/
theorem authenticate_second_call_cached_witness :
    authenticate "Svc" ["api_key"] 3600 0 "jwt1"
        (.http 200 "" (Json.obj [("api_key", Json.str "k")])) ⟨[], none⟩ =
      (.ok ⟨[("api_key", Json.str "k")], 0, 3600⟩,
        ⟨[("jwt1", ⟨[("api_key", Json.str "k")], 0, 3600⟩)], some "jwt1"⟩, 1) ∧
    authenticate "Svc" ["api_key"] 3600 10 "jwt1"
        (.http 500 "boom" Json.null)
        ⟨[("jwt1", ⟨[("api_key", Json.str "k")], 0, 3600⟩)], some "jwt1"⟩ =
      (.ok ⟨[("api_key", Json.str "k")], 0, 3600⟩,
        ⟨[("jwt1", ⟨[("api_key", Json.str "k")], 0, 3600⟩)], some "jwt1"⟩, 0) := by
  have h := authenticate_second_call_cached "Svc" ["api_key"] 3600 0 10 "jwt1"
    (.http 200 "" (Json.obj [("api_key", Json.str "k")]))
    (.http 500 "boom" Json.null) ⟨[], none⟩
    ⟨[("api_key", Json.str "k")], 0, 3600⟩ rfl rfl rfl
  exact h

/-- C8: when no valid cache entry exists for the JWT, (i) a gateway
response of HTTP 404 makes `authenticate` fail with the
`AuthGatewayError` of kind "NotConfigured" — status code 404 and the
not-configured message — and leaves the cache and the active-session
pointer exactly as they were; more generally (ii) on ANY failing fetch
the state is returned unchanged: no cache entry is stored and
`_current_jwt` is untouched. -/
theorem authenticate_404_not_configured (svc : String) (expected : List String)
    (cacheTtl now : Int) (jwt text : String) (body : Json) (st0 : AuthState)
    (h0 : cacheValid now st0 jwt = false) :
    (authenticate svc expected cacheTtl now jwt (.http 404 text body) st0 =
      (.error ⟨notConfiguredMessage svc, some 404, none⟩, st0, 1)) ∧
    (∀ (resp : GatewayResponse) (e : AuthGatewayError),
      fetch_from_gateway svc expected cacheTtl now resp = .error e →
      authenticate svc expected cacheTtl now jwt resp st0 = (.error e, st0, 1)) := by
  have hgen : ∀ (resp : GatewayResponse) (e : AuthGatewayError),
      fetch_from_gateway svc expected cacheTtl now resp = .error e →
      authenticate svc expected cacheTtl now jwt resp st0 = (.error e, st0, 1) := by
    intro resp e he
    rcases hcache : dlookup st0.cache jwt with _ | cached
    · simp only [authenticate, hcache, authFetch, he]
    · have hexp : cached.is_expired now = true := by
        rw [cacheValid, hcache] at h0
        simpa using h0
      simp only [authenticate, hcache, hexp, if_true, authFetch, he]
  have h404 : fetch_from_gateway svc expected cacheTtl now (.http 404 text body) =
      .error ⟨notConfiguredMessage svc, some 404, none⟩ := rfl
  exact ⟨hgen _ _ h404, hgen⟩

/-- Witness for C8's theorem: a 404 fetch against a state that already
caches a DIFFERENT token leaves that state intact. -/
theorem authenticate_404_not_configured_witness :
    authenticate "Svc" ["api_key"] 3600 5 "jwt2" (.http 404 "" Json.null)
        ⟨[("jwt1", ⟨[("api_key", Json.str "k")], 0, 3600⟩)], some "jwt1"⟩ =
      (.error ⟨notConfiguredMessage "Svc", some 404, none⟩,
        ⟨[("jwt1", ⟨[("api_key", Json.str "k")], 0, 3600⟩)], some "jwt1"⟩, 1) :=
  (authenticate_404_not_configured "Svc" ["api_key"] 3600 5 "jwt2" "" Json.null
    ⟨[("jwt1", ⟨[("api_key", Json.str "k")], 0, 3600⟩)], some "jwt1"⟩ rfl).1

/-! ## Claim C9 — blocked-pattern policy -/

/-- C9: for a tool name matching a configured blocked pattern, when the
"critical tools enabled" override flag is NOT set the classification is
`(CRITICAL, BLOCK)` and `is_tool_blocked` reports true; when the flag IS
set, blocking is bypassed entirely: `is_tool_blocked` reports false for
EVERY name. -/
theorem blocked_pattern_policy (cfg : PoliciesConfig)
    (enableCriticalTools : Bool) (name : String)
    (h : matches_pattern name cfg.blocked_patterns = true) :
    (enableCriticalTools = false →
      get_tool_policy cfg name = (RiskLevel.critical, ToolAction.block) ∧
      is_tool_blocked enableCriticalTools cfg name = true) ∧
    (enableCriticalTools = true →
      ∀ n, is_tool_blocked enableCriticalTools cfg n = false) := by
  constructor
  · intro hflag
    subst hflag
    constructor
    · rw [get_tool_policy, if_pos h]
    · rw [is_tool_blocked]
      simpa using h
  · intro hflag n
    subst hflag
    rfl

/-- Witness for C9's theorem: the name `api_delete_item_force` matches
the blocked pattern `delete_item`. -/
theorem blocked_pattern_policy_witness :
    (get_tool_policy ⟨["delete_item"], [], false⟩ "api_DELETE_item_force" =
        (RiskLevel.critical, ToolAction.block) ∧
      is_tool_blocked false ⟨["delete_item"], [], false⟩ "api_DELETE_item_force" = true) ∧
    is_tool_blocked true ⟨["delete_item"], [], false⟩ "api_DELETE_item_force" = false := by
  have h := blocked_pattern_policy ⟨["delete_item"], [], false⟩ false
    "api_DELETE_item_force" (by decide)
  have h' := blocked_pattern_policy ⟨["delete_item"], [], false⟩ true
    "api_DELETE_item_force" (by decide)
  exact ⟨h.1 rfl, h'.2 rfl "api_DELETE_item_force"⟩

/-! ## Claim C10 — audit-log redaction -/

theorem filterValue_congr (k1 k2 : String) (v1 v2 : PyVal)
    (hk : k1 = k2) (hv : isSensitiveKey k1 = false → v1 = v2) :
    filterValue k1 v1 = filterValue k2 v2 := by
  subst hk
  by_cases hs : isSensitiveKey k1 = true
  · simp only [filterValue, hs, if_true]
  · rw [hv (by simpa using hs)]

theorem filter_sensitive_params_fold_congr :
    ∀ (p1 p2 : List (String × PyVal)),
      List.Forall₂ (fun a b => a.1 = b.1 ∧ (isSensitiveKey a.1 = false → a.2 = b.2)) p1 p2 →
      ∀ acc : List (String × PyVal),
        p1.foldl (fun filtered kv => dinsert filtered kv.1 (filterValue kv.1 kv.2)) acc =
        p2.foldl (fun filtered kv => dinsert filtered kv.1 (filterValue kv.1 kv.2)) acc := by
  intro p1
  induction p1 with
  | nil =>
    intro p2 hrel acc
    cases hrel
    rfl
  | cons a t ih =>
    intro p2 hrel acc
    cases hrel with
    | cons hab htail =>
      rename_i b t2
      simp only [List.foldl_cons]
      rw [show dinsert acc a.1 (filterValue a.1 a.2) =
          dinsert acc b.1 (filterValue b.1 b.2) from by
        rw [filterValue_congr a.1 b.1 a.2 b.2 hab.1 hab.2, hab.1]]
      exact ih t2 htail _

/-- C10: in `_filter_sensitive_params`, (i) every key whose lowercased
form contains one of the sensitive substrings maps to the fixed marker
`"[REDACTED]"` regardless of its value — in particular redaction wins
over truncation for keys matching both rules — and (ii) two parameter
dicts with the same keys in the same order that differ only in the values
at sensitive keys produce IDENTICAL filtered output: the logged record
does not depend on sensitive values. -/
theorem filter_sensitive_params_redaction (k : String) (v : PyVal)
    (p1 p2 : List (String × PyVal))
    (hk : isSensitiveKey k = true)
    (hrel : List.Forall₂
      (fun a b => a.1 = b.1 ∧ (isSensitiveKey a.1 = false → a.2 = b.2)) p1 p2) :
    filterValue k v = PyVal.str "[REDACTED]" ∧
    filter_sensitive_params p1 = filter_sensitive_params p2 := by
  constructor
  · simp only [filterValue, hk, if_true]
  · rw [filter_sensitive_params, filter_sensitive_params]
    exact filter_sensitive_params_fold_congr p1 p2 hrel []

/-- Witness for C10's theorem: two dicts differing only in the values of
the sensitive keys `api_key` and `Token` (one of which also matches the
truncation rule via a long string) filter to the same output. -/
theorem filter_sensitive_params_redaction_witness :
    filterValue "api_key" (PyVal.num 7) = PyVal.str "[REDACTED]" ∧
    filter_sensitive_params
        [("api_key", PyVal.str "secret-a"), ("Token", PyVal.num 1), ("q", PyVal.str "x")] =
      filter_sensitive_params
        [("api_key", PyVal.str "other-b"), ("Token", PyVal.null), ("q", PyVal.str "x")] := by
  have h := filter_sensitive_params_redaction "api_key" (PyVal.num 7)
    [("api_key", PyVal.str "secret-a"), ("Token", PyVal.num 1), ("q", PyVal.str "x")]
    [("api_key", PyVal.str "other-b"), ("Token", PyVal.null), ("q", PyVal.str "x")]
    (by decide)
    (by
      refine List.Forall₂.cons ⟨rfl, by decide⟩ ?_
      refine List.Forall₂.cons ⟨rfl, by decide⟩ ?_
      exact List.Forall₂.cons ⟨rfl, by decide⟩ List.Forall₂.nil)
  exact h

end MCPTemplate
